import Mathlib

/-!
Shallow embedding of `main/dataset/base.py` (class `ManipData`) from the
ManipTrans repository, together with theorems settling the frozen claims
about it.

Modelling conventions:
* Python/torch float tensors are modelled over `ℝ` (exact real arithmetic).
* A `[T, ...]` tensor time series is modelled as a `List` over the per-frame
  payload; the broadcast `K` axis of the velocity helpers (which numpy/torch
  process elementwise) is modelled as a single channel.
* `numpy`/`scipy`/`torch` library calls are modelled by their documented
  semantics (`np.gradient`, `scipy.ndimage.gaussian_filter1d` with σ = 2,
  truncate = 4.0 hence radius 8 and `nearest` padding, the chamfer-distance
  kernel which returns per-point minimum *squared* distances, and the torch
  global RNG state API on a single visible CUDA device).
* `rotmat_to_aa` / `aa_to_rotmat` live in `main/dataset/transform.py`, which
  is repository code not included under `src/`; they are modelled from the
  spec (see their doc comments).
-/

noncomputable section

/-- A 3-vector (one row of a `[*, 3]` float tensor). -/
abbrev Vec3 : Type := Fin 3 → ℝ

/-- A 3×3 matrix (rotation block). -/
abbrev Mat3 : Type := Matrix (Fin 3) (Fin 3) ℝ

/-- A 4×4 matrix (homogeneous rigid transform). -/
abbrev Mat4 : Type := Matrix (Fin 4) (Fin 4) ℝ

/-- `m[:3, :3]` — the rotation block of a homogeneous transform. -/
def rot3 (m : Mat4) : Mat3 :=
  Matrix.submatrix m Fin.castSucc Fin.castSucc

/-- `m[:3, 3]` — the translation column of a homogeneous transform. -/
def trans3 (m : Mat4) : Vec3 :=
  fun i => m i.castSucc 3

/-- Squared Euclidean norm of a 3-vector. -/
def sqNorm3 (v : Vec3) : ℝ := v 0 ^ 2 + v 1 ^ 2 + v 2 ^ 2

/-- Euclidean norm of a 3-vector (`np.linalg.norm` on the last axis). -/
def norm3 (v : Vec3) : ℝ := Real.sqrt (sqNorm3 v)

/-- Squared Euclidean distance between two 3-vectors. -/
def sqDist (a b : Vec3) : ℝ :=
  (a 0 - b 0) ^ 2 + (a 1 - b 1) ^ 2 + (a 2 - b 2) ^ 2

/-- Euclidean distance between two 3-vectors. -/
def euclidDist (a b : Vec3) : ℝ := Real.sqrt (sqDist a b)

/-- Minimum of a list of reals (`0` junk value on the empty list; every use
in the development is on nonempty lists). -/
def listMin : List ℝ → ℝ
  | [] => 0
  | c :: cs => cs.foldl min c

/-- Modelled from the external `chamfer_distance` kernel used at
`base.py:125`: for one query point, the minimum squared distance to any
point of the other cloud (the source comment at `base.py:126` records that
`ch_dist` returns square distances). -/
def minSqDist (p : Vec3) (cloud : List Vec3) : ℝ :=
  listMin (cloud.map (fun c => sqDist p c))

/-- Modelled from the spec: `rotmat_to_aa` of `main/dataset/transform.py`
(repository code not under `src/`). Axis-angle of a rotation matrix: the
angle is `arccos((tr R - 1)/2)`, the axis direction is the skew-symmetric
part `(R 2 1 - R 1 2, R 0 2 - R 2 0, R 1 0 - R 0 1)` (of norm `2 sin θ`),
and the result is the unit axis scaled by the angle.  At the zero-rotation
singularity the skew part vanishes and Lean's `x / 0 = 0` convention yields
the zero vector, matching the spec's "lossless up to the singularity at
zero rotation". -/
def rotmat_to_aa (R : Mat3) : Vec3 :=
  let skew : Vec3 := ![R 2 1 - R 1 2, R 0 2 - R 2 0, R 1 0 - R 0 1]
  let angle := Real.arccos ((Matrix.trace R - 1) / 2)
  (angle / norm3 skew) • skew

/-- Cross-product matrix of a 3-vector (helper for Rodrigues' formula). -/
def crossMat (v : Vec3) : Mat3 :=
  ![![0, -v 2, v 1], ![v 2, 0, -v 0], ![-v 1, v 0, 0]]

/-- Modelled from the spec: `aa_to_rotmat` of `main/dataset/transform.py`
(repository code not under `src/`). Rodrigues' rotation formula
`I + (sin θ / θ)·[v]× + ((1 - cos θ)/θ²)·[v]×²` with `θ = ‖v‖`; at `θ = 0`
Lean's `x / 0 = 0` convention yields the identity matrix, matching the
axis-angle singularity behaviour required by the spec. -/
def aa_to_rotmat (v : Vec3) : Mat3 :=
  let angle := norm3 v
  1 + (Real.sin angle / angle) • crossMat v
    + ((1 - Real.cos angle) / angle ^ 2) • (crossMat v * crossMat v)

/-- Modelled from `np.gradient` along axis 0: central differences in the
interior, one-sided differences at the two ends.  (`np.gradient` raises on
series of length < 2; there the model returns junk values built from the
`0` default.) -/
def npGradient {α : Type} [AddCommGroup α] [Module ℝ α] (p : List α) : List α :=
  (List.range p.length).map fun t =>
    if t = 0 then p.getD 1 0 - p.getD 0 0
    else if t = p.length - 1 then p.getD t 0 - p.getD (t - 1) 0
    else ((2 : ℝ)⁻¹) • (p.getD (t + 1) 0 - p.getD (t - 1) 0)

/-- Unnormalized Gaussian kernel weight `exp(-j²/(2σ²))` with σ = 2, as
built by `scipy.ndimage.gaussian_filter1d`. -/
def gaussianWeight (j : ℤ) : ℝ :=
  Real.exp (-((j : ℝ) ^ 2) / (2 * 2 ^ 2))

/-- Normalization constant of the scipy Gaussian kernel: σ = 2 and the
default truncate = 4.0 give radius `int(4.0·2 + 0.5) = 8`, i.e. 17 taps. -/
def gaussianKernelSum : ℝ :=
  Finset.sum (Finset.range 17) fun j => gaussianWeight ((j : ℤ) - 8)

/-- Index clamping for `mode="nearest"` edge padding. -/
def clampIdx (len : ℕ) (i : ℤ) : ℕ :=
  (min (max i 0) ((len : ℤ) - 1)).toNat

/-- Modelled from `scipy.ndimage.gaussian_filter1d(·, 2, axis=0,
mode="nearest")`: correlation with the normalized 17-tap Gaussian kernel,
edge values extended by clamping ("nearest"). -/
def gaussian_filter1d {α : Type} [AddCommGroup α] [Module ℝ α] (xs : List α) : List α :=
  (List.range xs.length).map fun (t : ℕ) =>
    Finset.sum (Finset.range 17) fun j =>
      (gaussianWeight ((j : ℤ) - 8) / gaussianKernelSum) •
        xs.getD (clampIdx xs.length ((t : ℤ) + (j : ℤ) - 8)) 0

/-- `ManipData.compute_velocity` (`base.py:56-62`): `np.gradient` along the
time axis divided by `time_delta`, optionally Gaussian-smoothed. -/
def compute_velocity {α : Type} [AddCommGroup α] [Module ℝ α]
    (p : List α) (time_delta : ℝ) (guassian_filter : Bool := true) : List α :=
  let velocity := (npGradient p).map fun v => time_delta⁻¹ • v
  if guassian_filter then gaussian_filter1d velocity else velocity

/-- One entry of the per-pair angular-velocity computation of
`ManipData.compute_angular_velocity` (`base.py:67-71`): relative rotation
`rNext @ rPrevᵀ`, converted to axis-angle, split into angle magnitude and
axis (denominator offset by `1e-8`), rescaled by `angle / time_delta`. -/
def pairAngularVelocity (time_delta : ℝ) (rPrev rNext : Mat3) : Vec3 :=
  let diff_aa := rotmat_to_aa (rNext * rPrev.transpose)
  let diff_angle := norm3 diff_aa
  let diff_axis := (diff_angle + 1e-8)⁻¹ • diff_aa
  (diff_angle / time_delta) • diff_axis

/-- `ManipData.compute_angular_velocity` (`base.py:64-75`): `T - 1`
per-pair angular velocities (`r[1:] @ r[:-1]ᵀ` pairs), the last computed
value duplicated to pad back to `T` frames (`np.concatenate` with the
`[-1:]` slice, which is empty on an empty series), optional Gaussian
smoothing. -/
def compute_angular_velocity (r : List Mat3) (time_delta : ℝ)
    (guassian_filter : Bool := true) : List Vec3 :=
  let diff_av := List.zipWith
    (fun rNext rPrev => pairAngularVelocity time_delta rPrev rNext) (r.drop 1) r
  let angular_velocity := diff_av ++ diff_av.drop (diff_av.length - 1)
  if guassian_filter then gaussian_filter1d angular_velocity else angular_velocity

/-- `ManipData.compute_dof_velocity` (`base.py:77-83`): the scalar-field
velocity operator applied independently to each of the `D` actuator
channels of a `[T, D]` series (axis-0 semantics of `np.gradient` and
`gaussian_filter1d`), reassembled row-wise. -/
def compute_dof_velocity (dof : List (List ℝ)) (time_delta : ℝ)
    (guassian_filter : Bool := true) : List (List ℝ) :=
  (List.range dof.length).map fun t =>
    (List.range ((dof.getD t []).length)).map fun d =>
      (compute_velocity (dof.map fun row => row.getD d 0) time_delta
        guassian_filter).getD t 0

section LengthLemmas

theorem length_npGradient {α : Type} [AddCommGroup α] [Module ℝ α]
    (p : List α) : (npGradient p).length = p.length := by
  simp [npGradient]

theorem length_gaussian_filter1d {α : Type} [AddCommGroup α] [Module ℝ α]
    (xs : List α) : (gaussian_filter1d xs).length = xs.length := by
  simp only [gaussian_filter1d, List.length_map, List.length_range]

theorem length_compute_velocity {α : Type} [AddCommGroup α] [Module ℝ α]
    (p : List α) (td : ℝ) (gf : Bool) :
    (compute_velocity p td gf).length = p.length := by
  cases gf <;> simp [compute_velocity, length_gaussian_filter1d, length_npGradient]

theorem length_compute_angular_velocity (r : List Mat3) (td : ℝ) (gf : Bool)
    (h : 2 ≤ r.length) :
    (compute_angular_velocity r td gf).length = r.length := by
  have hz : (List.zipWith
      (fun rNext rPrev => pairAngularVelocity td rPrev rNext) (r.drop 1) r).length
      = r.length - 1 := by
    simp [List.length_zipWith]
    try omega
  cases gf <;>
    simp [compute_angular_velocity, length_gaussian_filter1d, hz] <;> try omega

theorem length_compute_dof_velocity (dof : List (List ℝ)) (td : ℝ) (gf : Bool) :
    (compute_dof_velocity dof td gf).length = dof.length := by
  simp [compute_dof_velocity]

end LengthLemmas

/-! ## Data model: the Sample bundle -/

/-- The five named fingertip joints queried for contact distance
(`base.py:119`). -/
def tip_list : List String :=
  ["thumb_tip", "index_tip", "middle_tip", "ring_tip", "pinky_tip"]

/-- The raw Sample assembled by the upstream loader, as consumed by
`process_data`: object pose trajectory (4×4 homogeneous transforms), wrist
positions, wrist rotations (3×3 matrices at this stage — `base.py:108`
converts them to axis-angle), and the named MANO joint position series. -/
structure RawSample where
  obj_trajectory : List Mat4
  wrist_pos : List Vec3
  wrist_rot : List Mat3
  mano_joints : List (String × List Vec3)

/-- The Sample after `process_data`: remapped primary fields (wrist_rot now
axis-angle) plus all derived fields. -/
structure Sample where
  obj_trajectory : List Mat4
  wrist_pos : List Vec3
  wrist_rot : List Vec3
  mano_joints : List (String × List Vec3)
  obj_velocity : List Vec3
  obj_angular_velocity : List Vec3
  wrist_velocity : List Vec3
  wrist_angular_velocity : List Vec3
  mano_joints_velocity : List (String × List Vec3)
  tips_distance : List (List ℝ)

/-- Look up a joint series by name (`data["mano_joints"][k]`; the empty
series stands in for the `KeyError` case, which no claim exercises). -/
def lookupJoints (mj : List (String × List Vec3)) (k : String) : List Vec3 :=
  (mj.lookup k).getD []

/-- The truncation step of `process_data` (`base.py:147-163`): clip every
per-frame field, including both nested mappings, to the first
`max_seq_len` frames. -/
def truncateSample (max_seq_len : ℕ) (s : Sample) : Sample where
  obj_trajectory := s.obj_trajectory.take max_seq_len
  wrist_pos := s.wrist_pos.take max_seq_len
  wrist_rot := s.wrist_rot.take max_seq_len
  mano_joints := s.mano_joints.map fun kv => (kv.1, kv.2.take max_seq_len)
  obj_velocity := s.obj_velocity.take max_seq_len
  obj_angular_velocity := s.obj_angular_velocity.take max_seq_len
  wrist_velocity := s.wrist_velocity.take max_seq_len
  wrist_angular_velocity := s.wrist_angular_velocity.take max_seq_len
  mano_joints_velocity := s.mano_joints_velocity.map fun kv => (kv.1, kv.2.take max_seq_len)
  tips_distance := s.tips_distance.take max_seq_len

/-- The pre-truncation part of `ManipData.process_data`
(`base.py:105-145`).  In order: rigid frame remap by `mujoco2gym_transf`
(full 4×4 product on the object trajectory, rotate-and-translate on wrist
and joint positions, rotation block composed then converted to axis-angle
on the wrist rotation); per-frame transformed object point cloud and
fingertip-to-cloud true Euclidean distances (square root of the chamfer
minimum squared distance); linear/angular velocities of every
positional/rotational field with `time_delta = 1/(120/skip)`. -/
def processCore (mujoco2gym_transf : Mat4) (skip : ℕ)
    (d : RawSample) (rs_verts_obj : List Vec3) : Sample :=
  let time_delta : ℝ := 1 / (120 / (skip : ℝ))
  let R := rot3 mujoco2gym_transf
  let p := trans3 mujoco2gym_transf
  let obj_trajectory := d.obj_trajectory.map fun m => mujoco2gym_transf * m
  let wrist_pos := d.wrist_pos.map fun w => R.mulVec w + p
  let wrist_rot := d.wrist_rot.map fun m => rotmat_to_aa (R * m)
  let mano_joints := d.mano_joints.map fun kv => (kv.1, kv.2.map fun w => R.mulVec w + p)
  let obj_verts_transf := obj_trajectory.map fun m =>
    rs_verts_obj.map fun v => (rot3 m).mulVec v + trans3 m
  let tips := (List.range (lookupJoints mano_joints "thumb_tip").length).map
    fun (t : ℕ) => tip_list.map fun k => (lookupJoints mano_joints k).getD t 0
  let tips_distance := List.zipWith
    (fun tipRow cloudRow => tipRow.map fun q => Real.sqrt (minSqDist q cloudRow))
    tips obj_verts_transf
  let s : Sample :=
    { obj_trajectory := obj_trajectory
      wrist_pos := wrist_pos
      wrist_rot := wrist_rot
      mano_joints := mano_joints
      obj_velocity := compute_velocity (obj_trajectory.map trans3) time_delta true
      obj_angular_velocity := compute_angular_velocity (obj_trajectory.map rot3) time_delta true
      wrist_velocity := compute_velocity wrist_pos time_delta true
      wrist_angular_velocity :=
        compute_angular_velocity (wrist_rot.map aa_to_rotmat) time_delta true
      mano_joints_velocity :=
        mano_joints.map fun kv => (kv.1, compute_velocity kv.2 time_delta true)
      tips_distance := tips_distance }
  s

/-- `ManipData.process_data` (`base.py:105-163`): the pre-truncation
computation followed by the shared truncation step when the trajectory
exceeds `max_seq_len` (the `cprint` warning is console observability only
and is not modelled). -/
def process_data (mujoco2gym_transf : Mat4) (skip : ℕ) (max_seq_len : ℕ)
    (d : RawSample) (rs_verts_obj : List Vec3) : Sample :=
  let s := processCore mujoco2gym_transf skip d rs_verts_obj
  if max_seq_len < s.obj_trajectory.length then truncateSample max_seq_len s else s

/-! ## Data model: the retargeted refinement bundle -/

/-- The three arrays deserialized from a refinement artifact
(`base.py:182-190`). -/
structure RetargetArtifact where
  opt_wrist_pos : List Vec3
  opt_wrist_rot : List Vec3
  opt_dof_pos : List (List ℝ)

/-- The refinement sub-bundle that `load_retargeted_data` adds to a
Sample. -/
structure OptBundle where
  opt_wrist_pos : List Vec3
  opt_wrist_rot : List Vec3
  opt_dof_pos : List (List ℝ)
  opt_wrist_velocity : List Vec3
  opt_wrist_angular_velocity : List Vec3
  opt_dof_velocity : List (List ℝ)

/-- The truncation step of `load_retargeted_data` (`base.py:203-212`). -/
def truncateOptBundle (max_seq_len : ℕ) (b : OptBundle) : OptBundle where
  opt_wrist_pos := b.opt_wrist_pos.take max_seq_len
  opt_wrist_rot := b.opt_wrist_rot.take max_seq_len
  opt_dof_pos := b.opt_dof_pos.take max_seq_len
  opt_wrist_velocity := b.opt_wrist_velocity.take max_seq_len
  opt_wrist_angular_velocity := b.opt_wrist_angular_velocity.take max_seq_len
  opt_dof_velocity := b.opt_dof_velocity.take max_seq_len

/-- `ManipData.load_retargeted_data` (`base.py:165-213`).  `artifact = none`
models the path-does-not-exist branch: the fallback copies the Sample's
primary wrist fields and uses a `T × n_dofs` zero array for the dof
positions (the multi-line `cprint` advisory warning is console
observability only and is not modelled; its non-fatality is reflected in
the fallback returning a bundle like the present branch).  After either
branch the opt velocities are recomputed and the bundle is truncated to
`max_seq_len`; the final `assert len(opt_wrist_pos) == len(obj_trajectory)`
is modelled by returning `none` (no sample) when it fails. -/
def load_retargeted_data (skip : ℕ) (max_seq_len : ℕ) (n_dofs : ℕ)
    (s : Sample) (artifact : Option RetargetArtifact) : Option OptBundle :=
  let time_delta : ℝ := 1 / (120 / (skip : ℝ))
  let base : RetargetArtifact :=
    match artifact with
    | none =>
      { opt_wrist_pos := s.wrist_pos
        opt_wrist_rot := s.wrist_rot
        opt_dof_pos := List.replicate s.wrist_pos.length (List.replicate n_dofs 0) }
    | some a => a
  let b : OptBundle :=
    { opt_wrist_pos := base.opt_wrist_pos
      opt_wrist_rot := base.opt_wrist_rot
      opt_dof_pos := base.opt_dof_pos
      opt_wrist_velocity := compute_velocity base.opt_wrist_pos time_delta true
      opt_wrist_angular_velocity :=
        compute_angular_velocity (base.opt_wrist_rot.map aa_to_rotmat) time_delta true
      opt_dof_velocity := compute_dof_velocity base.opt_dof_pos time_delta true }
  let b2 := if max_seq_len < b.opt_wrist_pos.length then truncateOptBundle max_seq_len b else b
  if b2.opt_wrist_pos.length = s.obj_trajectory.length then some b2 else none

/-! ## Global RNG state model for `random_sampling_pc` -/

/-- The three ambient RNG states the sampler saves and restores
(`base.py:86-88`): the NumPy global state, the torch CPU generator state,
and the torch CUDA generator state of the single visible device
(`device="cuda:0"`; `torch.cuda.get_rng_state`/`set_rng_state` address the
current device).  States are abstract tokens. -/
structure RngStates where
  numpyState : ℕ
  torchCpuState : ℕ
  torchCudaState : ℕ

/-- The two process-wide cuDNN backend flags mutated at `base.py:93-94`. -/
structure CudnnFlags where
  deterministic : Bool
  benchmark : Bool

/-- Ambient global state touched by `random_sampling_pc`. -/
structure TorchGlobalState where
  rng : RngStates
  flags : CudnnFlags

/-- The RNG states after the seeding block `np.random.seed(0)`,
`torch.manual_seed(0)`, `torch.cuda.manual_seed(0)`,
`torch.cuda.manual_seed_all(0)` (`base.py:89-92`): every generator is set
to the canonical state determined by the constant seed, modelled as the
seed itself. -/
def seededRngStates (seed : ℕ) : RngStates :=
  { numpyState := seed, torchCpuState := seed, torchCudaState := seed }

/-- `ManipData.random_sampling_pc` (`base.py:85-103`), parameterized by the
external `pytorch3d.ops.sample_points_from_meshes` kernel, modelled as a
pure function of the mesh, the requested point count, and the ambient RNG
states (which it may advance).  The method saves the three RNG states,
reseeds everything to the constant 0 and forces the cuDNN determinism
flags, draws 1000 surface points, then restores the three saved RNG states
(the cuDNN flags are not restored). -/
def random_sampling_pc {Mesh : Type}
    (sample_points_from_meshes : Mesh → ℕ → RngStates → List Vec3 × RngStates)
    (mesh : Mesh) (g : TorchGlobalState) : List Vec3 × TorchGlobalState :=
  let numpy_random_state := g.rng.numpyState
  let torch_random_state := g.rng.torchCpuState
  let torch_random_state_cuda := g.rng.torchCudaState
  let seeded : TorchGlobalState :=
    { rng := seededRngStates 0, flags := { deterministic := true, benchmark := false } }
  let draw := sample_points_from_meshes mesh 1000 seeded.rng
  (draw.1,
    { rng :=
        { numpyState := numpy_random_state
          torchCpuState := torch_random_state
          torchCudaState := torch_random_state_cuda }
      flags := seeded.flags })

/-! ## Claims C4, C7, C10: the surface sampler and global state -/

/-- Claim C4: for every mesh, `random_sampling_pc` leaves the ambient
global RNG states (NumPy, torch CPU, torch CUDA) bit-identical to their
values before the call — it saves them, reseeds to the constant 0,
performs the draw, and restores the saved states exactly, whatever states
the sampling kernel left behind. -/
theorem random_sampling_pc_restores_rng {Mesh : Type}
    (sample_points_from_meshes : Mesh → ℕ → RngStates → List Vec3 × RngStates)
    (mesh : Mesh) (g : TorchGlobalState) :
    ((random_sampling_pc sample_points_from_meshes mesh g).2).rng = g.rng := rfl

/-- Claim C10: every call of `random_sampling_pc` leaves the process-wide
cuDNN flags at `deterministic = True`, `benchmark = False`, regardless of
their values before the call — the flags are never restored. -/
theorem random_sampling_pc_sets_cudnn_flags {Mesh : Type}
    (sample_points_from_meshes : Mesh → ℕ → RngStates → List Vec3 × RngStates)
    (mesh : Mesh) (g : TorchGlobalState) :
    ((random_sampling_pc sample_points_from_meshes mesh g).2).flags.deterministic = true ∧
    ((random_sampling_pc sample_points_from_meshes mesh g).2).flags.benchmark = false :=
  ⟨rfl, rfl⟩

/-- Claim C7: for a fixed mesh, two calls of `random_sampling_pc` return
bit-identical point clouds of exactly 1000 points, whatever the ambient
global state at each call: the draw happens from the constant reseeded
state, so the cloud is a deterministic function of the mesh (given that
the sampling kernel honours its requested point count). -/
theorem random_sampling_pc_deterministic {Mesh : Type}
    (sample_points_from_meshes : Mesh → ℕ → RngStates → List Vec3 × RngStates)
    (hcount : ∀ m n st, (sample_points_from_meshes m n st).1.length = n)
    (mesh : Mesh) (g1 g2 : TorchGlobalState) :
    (random_sampling_pc sample_points_from_meshes mesh g1).1 =
      (random_sampling_pc sample_points_from_meshes mesh g2).1 ∧
    (random_sampling_pc sample_points_from_meshes mesh g1).1.length = 1000 :=
  ⟨rfl, hcount mesh 1000 (seededRngStates 0)⟩

/-- A trivial sampling kernel used to witness `random_sampling_pc_deterministic`. -/
def constSamplerW : ℕ → ℕ → RngStates → List Vec3 × RngStates :=
  fun _ n st => (List.replicate n (fun _ => 0), st)

/-- Witness for Claim C7's theorem at a concrete sampler, mesh and pair of
distinct ambient states. -/
theorem random_sampling_pc_deterministic_witness :
    (random_sampling_pc constSamplerW 7 ⟨⟨1, 2, 3⟩, ⟨false, true⟩⟩).1 =
      (random_sampling_pc constSamplerW 7 ⟨⟨4, 5, 6⟩, ⟨true, true⟩⟩).1 ∧
    (random_sampling_pc constSamplerW 7 ⟨⟨1, 2, 3⟩, ⟨false, true⟩⟩).1.length = 1000 :=
  random_sampling_pc_deterministic constSamplerW
    (fun m n st => by simp [constSamplerW]) 7 ⟨⟨1, 2, 3⟩, ⟨false, true⟩⟩ ⟨⟨4, 5, 6⟩, ⟨true, true⟩⟩

/-! ## Claims C1, C5: the retargeted-pose loader -/

/-- Claim C1: after `load_retargeted_data` completes (either branch, after
recomputing velocities and truncating), the length of `opt_wrist_pos`
equals the length of `obj_trajectory`; if the truncated lengths differ the
fatal assertion fires and no sample is returned (`none`). -/
theorem load_retargeted_data_length_parity (skip L D : ℕ) (s : Sample)
    (artifact : Option RetargetArtifact) :
    (∀ b, load_retargeted_data skip L D s artifact = some b →
      b.opt_wrist_pos.length = s.obj_trajectory.length) ∧
    (min (match artifact with
          | none => s.wrist_pos.length
          | some a => a.opt_wrist_pos.length) L ≠ s.obj_trajectory.length →
      load_retargeted_data skip L D s artifact = none) := by
  rcases artifact with _ | a
  · constructor
    · intro b hb
      simp only [load_retargeted_data] at hb
      split at hb
      all_goals
        split at hb
        · next h => rw [← Option.some.inj hb]; exact h
        · exact Option.noConfusion hb
    · intro hne
      by_cases htr : L < s.wrist_pos.length
      · simp only [load_retargeted_data, htr, if_true]
        rw [if_neg]
        simp only [truncateOptBundle, List.length_take]
        rw [Nat.min_comm] at hne
        exact hne
      · simp only [load_retargeted_data, htr, if_false]
        rw [if_neg]
        rw [Nat.min_eq_left (Nat.le_of_not_lt htr)] at hne
        exact hne
  · constructor
    · intro b hb
      simp only [load_retargeted_data] at hb
      split at hb
      all_goals
        split at hb
        · next h => rw [← Option.some.inj hb]; exact h
        · exact Option.noConfusion hb
    · intro hne
      by_cases htr : L < a.opt_wrist_pos.length
      · simp only [load_retargeted_data, htr, if_true]
        rw [if_neg]
        simp only [truncateOptBundle, List.length_take]
        rw [Nat.min_comm] at hne
        exact hne
      · simp only [load_retargeted_data, htr, if_false]
        rw [if_neg]
        rw [Nat.min_eq_left (Nat.le_of_not_lt htr)] at hne
        exact hne

/-- The empty Sample, used to witness Claim C1's theorem. -/
def emptySample : Sample where
  obj_trajectory := []
  wrist_pos := []
  wrist_rot := []
  mano_joints := []
  obj_velocity := []
  obj_angular_velocity := []
  wrist_velocity := []
  wrist_angular_velocity := []
  mano_joints_velocity := []
  tips_distance := []

/-- The bundle `load_retargeted_data` returns on the empty Sample. -/
def emptyBundle : OptBundle where
  opt_wrist_pos := []
  opt_wrist_rot := []
  opt_dof_pos := []
  opt_wrist_velocity := []
  opt_wrist_angular_velocity := []
  opt_dof_velocity := []

/-- Witness for Claim C1's theorem: a concrete call that returns a bundle,
whose `opt_wrist_pos` length indeed equals the trajectory length. -/
theorem load_retargeted_data_length_parity_witness :
    emptyBundle.opt_wrist_pos.length = emptySample.obj_trajectory.length :=
  (load_retargeted_data_length_parity 2 5 3 emptySample none).1 emptyBundle rfl

/-- Claim C5: when no refinement artifact exists, `load_retargeted_data`
falls back to `opt_wrist_pos := wrist_pos`, `opt_wrist_rot := wrist_rot`
and an all-zeros `opt_dof_pos` of shape `T × n_dofs` (`T` the wrist-series
length); stated pre-truncation, i.e. for samples inside the length bound.
The accompanying advisory warning is non-fatal console output (the call
still returns a bundle, as the hypothesis exhibits). -/
theorem load_retargeted_data_fallback (skip L D : ℕ) (s : Sample)
    (h : s.wrist_pos.length ≤ L) (b : OptBundle)
    (hb : load_retargeted_data skip L D s none = some b) :
    b.opt_wrist_pos = s.wrist_pos ∧ b.opt_wrist_rot = s.wrist_rot ∧
    b.opt_dof_pos = List.replicate s.wrist_pos.length (List.replicate D (0 : ℝ)) := by
  have htr : ¬ (L < s.wrist_pos.length) := Nat.not_lt.mpr h
  simp only [load_retargeted_data, htr, if_false] at hb
  split at hb
  · next hcond =>
    rw [← Option.some.inj hb]
    exact ⟨rfl, rfl, rfl⟩
  · exact Option.noConfusion hb

/-- A concrete two-frame Sample used to witness Claim C5's theorem. -/
def sampleC5 : Sample where
  obj_trajectory := [1, 1]
  wrist_pos := [![0, 0, 0], ![1, 0, 0]]
  wrist_rot := [![0, 0, 0], ![0, 0, 1]]
  mano_joints := []
  obj_velocity := []
  obj_angular_velocity := []
  wrist_velocity := []
  wrist_angular_velocity := []
  mano_joints_velocity := []
  tips_distance := []

/-- Witness for Claim C5's theorem at a concrete two-frame Sample. -/
theorem load_retargeted_data_fallback_witness :
    (Option.getD (load_retargeted_data 2 5 3 sampleC5 none) emptyBundle).opt_wrist_pos
        = sampleC5.wrist_pos ∧
    (Option.getD (load_retargeted_data 2 5 3 sampleC5 none) emptyBundle).opt_wrist_rot
        = sampleC5.wrist_rot ∧
    (Option.getD (load_retargeted_data 2 5 3 sampleC5 none) emptyBundle).opt_dof_pos
        = List.replicate sampleC5.wrist_pos.length (List.replicate 3 (0 : ℝ)) :=
  load_retargeted_data_fallback 2 5 3 sampleC5 (by decide)
    (Option.getD (load_retargeted_data 2 5 3 sampleC5 none) emptyBundle) rfl

/-! ## Field characterizations of `processCore` -/

theorem processCore_obj_trajectory (F : Mat4) (skip : ℕ) (d : RawSample)
    (cloud : List Vec3) :
    (processCore F skip d cloud).obj_trajectory =
      d.obj_trajectory.map fun m => F * m := rfl

theorem processCore_wrist_pos (F : Mat4) (skip : ℕ) (d : RawSample)
    (cloud : List Vec3) :
    (processCore F skip d cloud).wrist_pos =
      d.wrist_pos.map fun w => (rot3 F).mulVec w + trans3 F := rfl

theorem processCore_wrist_rot (F : Mat4) (skip : ℕ) (d : RawSample)
    (cloud : List Vec3) :
    (processCore F skip d cloud).wrist_rot =
      d.wrist_rot.map fun m => rotmat_to_aa (rot3 F * m) := rfl

theorem processCore_mano_joints (F : Mat4) (skip : ℕ) (d : RawSample)
    (cloud : List Vec3) :
    (processCore F skip d cloud).mano_joints =
      d.mano_joints.map fun kv =>
        (kv.1, kv.2.map fun w => (rot3 F).mulVec w + trans3 F) := rfl

theorem processCore_obj_velocity (F : Mat4) (skip : ℕ) (d : RawSample)
    (cloud : List Vec3) :
    (processCore F skip d cloud).obj_velocity =
      compute_velocity ((d.obj_trajectory.map fun m => F * m).map trans3)
        (1 / (120 / (skip : ℝ))) true := rfl

theorem processCore_obj_angular_velocity (F : Mat4) (skip : ℕ) (d : RawSample)
    (cloud : List Vec3) :
    (processCore F skip d cloud).obj_angular_velocity =
      compute_angular_velocity ((d.obj_trajectory.map fun m => F * m).map rot3)
        (1 / (120 / (skip : ℝ))) true := rfl

theorem processCore_wrist_velocity (F : Mat4) (skip : ℕ) (d : RawSample)
    (cloud : List Vec3) :
    (processCore F skip d cloud).wrist_velocity =
      compute_velocity (d.wrist_pos.map fun w => (rot3 F).mulVec w + trans3 F)
        (1 / (120 / (skip : ℝ))) true := rfl

theorem processCore_wrist_angular_velocity (F : Mat4) (skip : ℕ) (d : RawSample)
    (cloud : List Vec3) :
    (processCore F skip d cloud).wrist_angular_velocity =
      compute_angular_velocity
        ((d.wrist_rot.map fun m => rotmat_to_aa (rot3 F * m)).map aa_to_rotmat)
        (1 / (120 / (skip : ℝ))) true := rfl

theorem processCore_mano_joints_velocity (F : Mat4) (skip : ℕ) (d : RawSample)
    (cloud : List Vec3) :
    (processCore F skip d cloud).mano_joints_velocity =
      (processCore F skip d cloud).mano_joints.map fun kv =>
        (kv.1, compute_velocity kv.2 (1 / (120 / (skip : ℝ))) true) := rfl

theorem processCore_tips_distance (F : Mat4) (skip : ℕ) (d : RawSample)
    (cloud : List Vec3) :
    (processCore F skip d cloud).tips_distance =
      List.zipWith
        (fun tipRow cloudRow => tipRow.map fun q => Real.sqrt (minSqDist q cloudRow))
        ((List.range
            (lookupJoints (processCore F skip d cloud).mano_joints "thumb_tip").length).map
          fun (t : ℕ) => tip_list.map fun k =>
            (lookupJoints (processCore F skip d cloud).mano_joints k).getD t 0)
        ((processCore F skip d cloud).obj_trajectory.map fun m =>
          cloud.map fun v => (rot3 m).mulVec v + trans3 m) := rfl

/-- Association-list lookup commutes with mapping over the values. -/
theorem lookup_map_snd {β γ : Type} (l : List (String × β)) (k : String) (f : β → γ) :
    (l.map fun kv => (kv.1, f kv.2)).lookup k = (l.lookup k).map f := by
  induction l with
  | nil => rfl
  | cons kv rest ih =>
    obtain ⟨k1, v1⟩ := kv
    cases h : k == k1 <;> simp [List.lookup, h, ih]

theorem length_lookupJoints_map (mj : List (String × List Vec3)) (k : String)
    (f : Vec3 → Vec3) :
    (lookupJoints (mj.map fun kv => (kv.1, kv.2.map f)) k).length =
      (lookupJoints mj k).length := by
  unfold lookupJoints
  rw [lookup_map_snd]
  cases mj.lookup k <;> simp

/-! ## Claim C2: uniform truncation of every per-frame field -/

/-- Claim C2: for a Sample whose primary per-frame fields share one length
`T` exceeding the bound `L`, after `process_data`'s truncation step every
per-frame field — `obj_trajectory`, `wrist_pos`, `wrist_rot`, every
`mano_joints[k]`, every `mano_joints_velocity[k]`, all velocity fields and
`tips_distance` — has length exactly `min T L`; no field keeps its
original length. -/
theorem process_data_truncation_uniform
    (F : Mat4) (skip L : ℕ) (d : RawSample) (cloud : List Vec3) (T : ℕ)
    (hT : 2 ≤ T) (hL : L < T)
    (h1 : d.obj_trajectory.length = T) (h2 : d.wrist_pos.length = T)
    (h3 : d.wrist_rot.length = T)
    (h4 : ∀ kv ∈ d.mano_joints, kv.2.length = T)
    (h5 : ((d.mano_joints.lookup "thumb_tip").getD []).length = T) :
    (process_data F skip L d cloud).obj_trajectory.length = min T L ∧
    (process_data F skip L d cloud).wrist_pos.length = min T L ∧
    (process_data F skip L d cloud).wrist_rot.length = min T L ∧
    (∀ kv ∈ (process_data F skip L d cloud).mano_joints, kv.2.length = min T L) ∧
    (process_data F skip L d cloud).obj_velocity.length = min T L ∧
    (process_data F skip L d cloud).obj_angular_velocity.length = min T L ∧
    (process_data F skip L d cloud).wrist_velocity.length = min T L ∧
    (process_data F skip L d cloud).wrist_angular_velocity.length = min T L ∧
    (∀ kv ∈ (process_data F skip L d cloud).mano_joints_velocity,
      kv.2.length = min T L) ∧
    (process_data F skip L d cloud).tips_distance.length = min T L := by
  have hcond : L < (processCore F skip d cloud).obj_trajectory.length := by
    rw [processCore_obj_trajectory]
    simp [h1]
    omega
  have hpd : process_data F skip L d cloud =
      truncateSample L (processCore F skip d cloud) := by
    rw [process_data, if_pos hcond]
  have e1 : 2 ≤ ((d.obj_trajectory.map fun m => F * m).map rot3).length := by
    simpa [h1] using hT
  have e2 : 2 ≤ ((d.wrist_rot.map fun m =>
      rotmat_to_aa (rot3 F * m)).map aa_to_rotmat).length := by
    simpa [h3] using hT
  have hthumb :
      (lookupJoints (processCore F skip d cloud).mano_joints "thumb_tip").length = T := by
    rw [processCore_mano_joints, length_lookupJoints_map]
    exact h5
  rw [hpd]
  refine ⟨?_, ?_, ?_, ?_, ?_, ?_, ?_, ?_, ?_, ?_⟩
  · simp [truncateSample, processCore_obj_trajectory, h1]
    omega
  · simp [truncateSample, processCore_wrist_pos, h2]
    omega
  · simp [truncateSample, processCore_wrist_rot, h3]
    omega
  · intro kv hkv
    rw [truncateSample] at hkv
    simp only [processCore_mano_joints, List.map_map, List.mem_map] at hkv
    obtain ⟨kv0, hm0, rfl⟩ := hkv
    simp [List.length_take, h4 kv0 hm0]
    omega
  · simp [truncateSample, processCore_obj_velocity, length_compute_velocity, h1]
    omega
  · simp only [truncateSample, List.length_take]
    rw [processCore_obj_angular_velocity, length_compute_angular_velocity _ _ _ e1]
    simp [h1]
    omega
  · simp [truncateSample, processCore_wrist_velocity, length_compute_velocity, h2]
    omega
  · simp only [truncateSample, List.length_take]
    rw [processCore_wrist_angular_velocity, length_compute_angular_velocity _ _ _ e2]
    simp [h3]
    omega
  · intro kv hkv
    rw [truncateSample] at hkv
    simp only [processCore_mano_joints_velocity, processCore_mano_joints,
      List.map_map, List.mem_map] at hkv
    obtain ⟨kv0, hm0, rfl⟩ := hkv
    simp [List.length_take, length_compute_velocity, h4 kv0 hm0]
    omega
  · simp [truncateSample, processCore_tips_distance, List.length_zipWith,
      processCore_obj_trajectory, hthumb, h1]
    omega

/-- A concrete two-frame raw Sample (all five fingertip joints present)
used to witness Claim C2's theorem with `T = 2`, `L = 1`. -/
def rawC2 : RawSample where
  obj_trajectory := [1, 1]
  wrist_pos := [![0, 0, 0], ![1, 0, 0]]
  wrist_rot := [1, 1]
  mano_joints :=
    [("thumb_tip", [![0, 0, 0], ![0, 0, 1]]),
     ("index_tip", [![0, 0, 0], ![0, 1, 0]]),
     ("middle_tip", [![0, 0, 0], ![0, 1, 1]]),
     ("ring_tip", [![0, 0, 0], ![1, 0, 0]]),
     ("pinky_tip", [![0, 0, 0], ![1, 0, 1]])]

/-- Witness for Claim C2's theorem at `rawC2` with bound `L = 1`. -/
theorem process_data_truncation_uniform_witness :
    (process_data 1 2 1 rawC2 [![0, 0, 0]]).obj_trajectory.length = min 2 1 ∧
    (process_data 1 2 1 rawC2 [![0, 0, 0]]).wrist_pos.length = min 2 1 ∧
    (process_data 1 2 1 rawC2 [![0, 0, 0]]).wrist_rot.length = min 2 1 ∧
    (∀ kv ∈ (process_data 1 2 1 rawC2 [![0, 0, 0]]).mano_joints,
      kv.2.length = min 2 1) ∧
    (process_data 1 2 1 rawC2 [![0, 0, 0]]).obj_velocity.length = min 2 1 ∧
    (process_data 1 2 1 rawC2 [![0, 0, 0]]).obj_angular_velocity.length = min 2 1 ∧
    (process_data 1 2 1 rawC2 [![0, 0, 0]]).wrist_velocity.length = min 2 1 ∧
    (process_data 1 2 1 rawC2 [![0, 0, 0]]).wrist_angular_velocity.length = min 2 1 ∧
    (∀ kv ∈ (process_data 1 2 1 rawC2 [![0, 0, 0]]).mano_joints_velocity,
      kv.2.length = min 2 1) ∧
    (process_data 1 2 1 rawC2 [![0, 0, 0]]).tips_distance.length = min 2 1 :=
  process_data_truncation_uniform 1 2 1 rawC2 [![0, 0, 0]] 2
    (by decide) (by decide) rfl rfl rfl
    (by intro kv hkv; fin_cases hkv <;> rfl) rfl

/-! ## Positional extraction helpers -/

theorem getD_take_lt {α : Type} (l : List α) (n t : ℕ) (h : t < n) (d : α) :
    (l.take n).getD t d = l.getD t d := by
  rw [List.getD_eq_getElem?_getD, List.getD_eq_getElem?_getD, List.getElem?_take_of_lt h]

theorem getD_map_lt {α β : Type} (f : α → β) (l : List α) (t : ℕ)
    (h : t < l.length) (d : β) (d' : α) :
    (l.map f).getD t d = f (l.getD t d') := by
  rw [List.getD_eq_getElem?_getD, List.getElem?_map, List.getElem?_eq_getElem h,
    List.getD_eq_getElem l d' h]
  rfl

theorem getD_zipWith_lt {α β γ : Type} (f : α → β → γ) (l1 : List α) (l2 : List β)
    (t : ℕ) (h1 : t < l1.length) (h2 : t < l2.length) (d1 : α) (d2 : β) (d : γ) :
    (List.zipWith f l1 l2).getD t d = f (l1.getD t d1) (l2.getD t d2) := by
  have hlen : t < (List.zipWith f l1 l2).length := by
    rw [List.length_zipWith]; omega
  rw [List.getD_eq_getElem?_getD, List.getElem?_eq_getElem hlen, List.getElem_zipWith]
  simp [List.getElem?_eq_getElem h1, List.getElem?_eq_getElem h2]

theorem getD_range_lt (n t : ℕ) (h : t < n) (d : ℕ) :
    (List.range n).getD t d = t := by
  rw [List.getD_eq_getElem?_getD, List.getElem?_range h]
  rfl

/-! ## Claim C8: the rigid frame remap -/

/-- Claim C8: for a valid fixed 4×4 rigid transform `F`, `process_data`
replaces (for every surviving frame `t`) `obj_trajectory[t]` by the full
4×4 product `F @ obj_trajectory[t]`, `wrist_pos[t]` by
`R @ wrist_pos[t] + p` with `R = F[:3,:3]` and `p = F[:3,3]`, and applies
that same rotate-and-translate map to every `mano_joints[k]` sequence
(whose key set is preserved). -/
theorem process_data_rigid_remap
    (F : Mat4) (skip L : ℕ) (d : RawSample) (cloud : List Vec3) (T t : ℕ)
    (h1 : d.obj_trajectory.length = T) (h2 : d.wrist_pos.length = T)
    (h4 : ∀ kv ∈ d.mano_joints, kv.2.length = T)
    (ht : t < min T L) :
    (process_data F skip L d cloud).obj_trajectory.getD t 1 =
      F * d.obj_trajectory.getD t 1 ∧
    (process_data F skip L d cloud).wrist_pos.getD t 0 =
      (rot3 F).mulVec (d.wrist_pos.getD t 0) + trans3 F ∧
    (process_data F skip L d cloud).mano_joints.map Prod.fst =
      d.mano_joints.map Prod.fst ∧
    ∀ i, i < d.mano_joints.length →
      ((process_data F skip L d cloud).mano_joints.getD i ("", [])).2.getD t 0 =
        (rot3 F).mulVec ((d.mano_joints.getD i ("", [])).2.getD t 0) + trans3 F := by
  have htT : t < T := lt_of_lt_of_le ht (min_le_left _ _)
  have htL : t < L := lt_of_lt_of_le ht (min_le_right _ _)
  have hsplit : process_data F skip L d cloud =
      truncateSample L (processCore F skip d cloud) ∨
      process_data F skip L d cloud = processCore F skip d cloud := by
    simp only [process_data]
    split
    · exact Or.inl rfl
    · exact Or.inr rfl
  have hcore_mano_len : (processCore F skip d cloud).mano_joints.length
      = d.mano_joints.length := by
    rw [processCore_mano_joints, List.length_map]
  have hcore_obj : (processCore F skip d cloud).obj_trajectory.getD t 1 =
      F * d.obj_trajectory.getD t 1 := by
    rw [processCore_obj_trajectory, getD_map_lt _ _ _ (by omega) 1 1]
  have hcore_wrist : (processCore F skip d cloud).wrist_pos.getD t 0 =
      (rot3 F).mulVec (d.wrist_pos.getD t 0) + trans3 F := by
    rw [processCore_wrist_pos, getD_map_lt _ _ _ (by omega) 0 0]
  have hcore_keys : (processCore F skip d cloud).mano_joints.map Prod.fst =
      d.mano_joints.map Prod.fst := by
    rw [processCore_mano_joints]
    simp [List.map_map]
  have hcore_mano : ∀ i, i < d.mano_joints.length →
      ((processCore F skip d cloud).mano_joints.getD i ("", [])).2.getD t 0 =
        (rot3 F).mulVec ((d.mano_joints.getD i ("", [])).2.getD t 0) + trans3 F := by
    intro i hi
    have hlen2 : t < (d.mano_joints.getD i ("", [])).2.length := by
      have hmem : d.mano_joints.getD i ("", []) ∈ d.mano_joints := by
        rw [List.getD_eq_getElem d.mano_joints ("", []) hi]
        exact List.getElem_mem hi
      rw [h4 _ hmem]
      exact htT
    rw [processCore_mano_joints, getD_map_lt _ _ _ hi ("", []) ("", [])]
    exact getD_map_lt _ _ _ hlen2 0 0
  rcases hsplit with hpd | hpd <;> rw [hpd]
  · refine ⟨?_, ?_, ?_, ?_⟩
    · show ((processCore F skip d cloud).obj_trajectory.take L).getD t 1 = _
      rw [getD_take_lt _ _ _ htL]
      exact hcore_obj
    · show ((processCore F skip d cloud).wrist_pos.take L).getD t 0 = _
      rw [getD_take_lt _ _ _ htL]
      exact hcore_wrist
    · show (((processCore F skip d cloud).mano_joints.map
          fun kv => (kv.1, kv.2.take L)).map Prod.fst) = _
      rw [← hcore_keys]
      simp [List.map_map]
    · intro i hi
      show ((((processCore F skip d cloud).mano_joints.map
          fun kv => (kv.1, kv.2.take L)).getD i ("", [])).2).getD t 0 = _
      rw [getD_map_lt _ _ _ (by omega) ("", []) ("", [])]
      show (((processCore F skip d cloud).mano_joints.getD i ("", [])).2.take L).getD t 0 = _
      rw [getD_take_lt _ _ _ htL]
      exact hcore_mano i hi
  · exact ⟨hcore_obj, hcore_wrist, hcore_keys, hcore_mano⟩

/-- A concrete rigid transform (translation by `(5,0,0)`) used to witness
Claim C8's theorem. -/
def transfW : Mat4 := ![![1, 0, 0, 5], ![0, 1, 0, 0], ![0, 0, 1, 0], ![0, 0, 0, 1]]

/-- Witness for Claim C8's theorem at a concrete transform, Sample and
frame index. -/
theorem process_data_rigid_remap_witness :
    (process_data transfW 2 1 rawC2 [![0, 0, 0]]).obj_trajectory.getD 0 1 =
      transfW * rawC2.obj_trajectory.getD 0 1 ∧
    (process_data transfW 2 1 rawC2 [![0, 0, 0]]).wrist_pos.getD 0 0 =
      (rot3 transfW).mulVec (rawC2.wrist_pos.getD 0 0) + trans3 transfW ∧
    (process_data transfW 2 1 rawC2 [![0, 0, 0]]).mano_joints.map Prod.fst =
      rawC2.mano_joints.map Prod.fst ∧
    ∀ i, i < rawC2.mano_joints.length →
      ((process_data transfW 2 1 rawC2 [![0, 0, 0]]).mano_joints.getD i ("", [])).2.getD 0 0 =
        (rot3 transfW).mulVec ((rawC2.mano_joints.getD i ("", [])).2.getD 0 0) +
          trans3 transfW :=
  process_data_rigid_remap transfW 2 1 rawC2 [![0, 0, 0]] 2 0 rfl rfl
    (by intro kv hkv; fin_cases hkv <;> rfl) (by decide)

/-! ## Claim C9: the epsilon-offset axis normalization -/

/-- Claim C9: in the per-pair angular-velocity computation, the axis
normalization denominator is the angle magnitude plus `1e-8`, strictly
positive for every input pair, so the division is always well-defined; and
when the relative rotation between consecutive frames is exactly the
identity, the resulting angular-velocity vector for that pair is zero. -/
theorem pairAngularVelocity_denominator_pos (time_delta : ℝ) (rPrev rNext : Mat3) :
    0 < norm3 (rotmat_to_aa (rNext * rPrev.transpose)) + 1e-8 ∧
    (rNext * rPrev.transpose = 1 →
      pairAngularVelocity time_delta rPrev rNext = 0) := by
  constructor
  · have h := Real.sqrt_nonneg (sqNorm3 (rotmat_to_aa (rNext * rPrev.transpose)))
    have : (0 : ℝ) < 1e-8 := by norm_num
    unfold norm3
    linarith
  · intro hid
    have haa : rotmat_to_aa (rNext * rPrev.transpose) = 0 := by
      rw [hid]
      unfold rotmat_to_aa
      have hskew : (![(1 : Mat3) 2 1 - (1 : Mat3) 1 2,
          (1 : Mat3) 0 2 - (1 : Mat3) 2 0,
          (1 : Mat3) 1 0 - (1 : Mat3) 0 1] : Vec3) = 0 := by
        funext i
        fin_cases i <;> simp [Matrix.one_apply]
      rw [hskew]
      simp
    unfold pairAngularVelocity
    rw [haa]
    simp

/-- Witness for Claim C9's theorem at the identity pair. -/
theorem pairAngularVelocity_denominator_pos_witness :
    0 < norm3 (rotmat_to_aa ((1 : Mat3) * (1 : Mat3).transpose)) + 1e-8 ∧
    pairAngularVelocity 1 1 1 = 0 :=
  ⟨(pairAngularVelocity_denominator_pos 1 1 1).1,
    (pairAngularVelocity_denominator_pos 1 1 1).2 (by simp)⟩

/-! ## Minimum-distance arithmetic for Claim C6 -/

theorem foldl_min_le_init (cs : List ℝ) (c : ℝ) : cs.foldl min c ≤ c := by
  induction cs generalizing c with
  | nil => exact le_refl c
  | cons x xs ih => exact le_trans (ih (min c x)) (min_le_left c x)

theorem foldl_min_le_mem (cs : List ℝ) (c x : ℝ) (hx : x ∈ cs) :
    cs.foldl min c ≤ x := by
  induction cs generalizing c with
  | nil => cases hx
  | cons y ys ih =>
    rcases List.mem_cons.mp hx with rfl | hmem
    · exact le_trans (foldl_min_le_init ys (min c x)) (min_le_right c x)
    · exact ih (min c y) hmem

theorem le_foldl_min (cs : List ℝ) (b c : ℝ) (hc : b ≤ c)
    (h : ∀ x ∈ cs, b ≤ x) : b ≤ cs.foldl min c := by
  induction cs generalizing c with
  | nil => exact hc
  | cons y ys ih =>
    exact ih (min c y) (le_min hc (h y (List.mem_cons_self y ys)))
      fun x hx => h x (List.mem_cons_of_mem y hx)

theorem listMin_le_of_mem (l : List ℝ) (x : ℝ) (hx : x ∈ l) : listMin l ≤ x := by
  cases l with
  | nil => cases hx
  | cons c cs =>
    rcases List.mem_cons.mp hx with rfl | hmem
    · exact foldl_min_le_init cs x
    · exact foldl_min_le_mem cs c x hmem

theorem listMin_nonneg (l : List ℝ) (h : ∀ x ∈ l, 0 ≤ x) : 0 ≤ listMin l := by
  cases l with
  | nil => exact le_refl 0
  | cons c cs =>
    exact le_foldl_min cs 0 c (h c (List.mem_cons_self c cs))
      fun x hx => h x (List.mem_cons_of_mem c hx)

theorem foldl_min_map_mono (f : ℝ → ℝ) (hf : Monotone f) (cs : List ℝ) (c : ℝ) :
    f (cs.foldl min c) = (cs.map f).foldl min (f c) := by
  induction cs generalizing c with
  | nil => rfl
  | cons x xs ih =>
    simp only [List.foldl_cons, List.map_cons]
    rw [← hf.map_min, ih]

/-- The square root of a list minimum is the minimum of the square roots. -/
theorem sqrt_listMin (l : List ℝ) :
    Real.sqrt (listMin l) = listMin (l.map Real.sqrt) := by
  cases l with
  | nil => exact Real.sqrt_zero
  | cons c cs =>
    exact foldl_min_map_mono Real.sqrt (fun a b h => Real.sqrt_le_sqrt h) cs c

theorem sqDist_nonneg (a b : Vec3) : 0 ≤ sqDist a b := by
  unfold sqDist
  positivity

theorem sqDist_self (a : Vec3) : sqDist a a = 0 := by
  unfold sqDist
  ring

/-- Taking the square root of the chamfer minimum squared distance yields
the minimum over the cloud of the true Euclidean distances. -/
theorem sqrt_minSqDist (p : Vec3) (cloud : List Vec3) :
    Real.sqrt (minSqDist p cloud) = listMin (cloud.map fun c => euclidDist p c) := by
  unfold minSqDist
  rw [sqrt_listMin, List.map_map]
  rfl

theorem minSqDist_nonneg (p : Vec3) (cloud : List Vec3) : 0 ≤ minSqDist p cloud := by
  apply listMin_nonneg
  intro x hx
  rcases List.mem_map.mp hx with ⟨c, _, rfl⟩
  exact sqDist_nonneg p c

theorem minSqDist_eq_zero_of_mem (p : Vec3) (cloud : List Vec3) (hp : p ∈ cloud) :
    minSqDist p cloud = 0 := by
  have hle : minSqDist p cloud ≤ 0 := by
    have : sqDist p p ∈ cloud.map fun c => sqDist p c :=
      List.mem_map.mpr ⟨p, hp, rfl⟩
    have h := listMin_le_of_mem _ _ this
    rw [sqDist_self] at h
    exact h
  exact le_antisymm hle (minSqDist_nonneg p cloud)

/-! ## Claim C6: fingertip-to-cloud contact distances -/

/-- The object point cloud rigidly transformed into frame `t` of the
(remapped) trajectory, as the spec describes it. -/
def frameCloud (F : Mat4) (d : RawSample) (cloud : List Vec3) (t : ℕ) : List Vec3 :=
  cloud.map fun v =>
    (rot3 (F * d.obj_trajectory.getD t 1)).mulVec v
      + trans3 (F * d.obj_trajectory.getD t 1)

/-- The `q`-th fingertip query point at frame `t`: the raw joint position
remapped by the fixed rigid transform. -/
def tipPoint (F : Mat4) (d : RawSample) (q t : ℕ) : Vec3 :=
  (rot3 F).mulVec
    (((d.mano_joints.lookup (tip_list.getD q "")).getD []).getD t 0) + trans3 F

/-- Claim C6: for every surviving frame `t` and each of the five fingertip
query points, `tips_distance[t][q]` equals the true Euclidean distance
(the square root of the minimum squared distance, never the raw squared
value) from that fingertip position to the nearest point of the per-frame
rigidly transformed 1000-point cloud; every entry is nonnegative, and a
query point coinciding with a cloud point gives distance 0. -/
theorem process_data_tips_distance_correct
    (F : Mat4) (skip L : ℕ) (d : RawSample) (cloud : List Vec3) (T t q : ℕ)
    (_hcloud : cloud.length = 1000)
    (h1 : d.obj_trajectory.length = T)
    (h5 : ∀ k ∈ tip_list, ((d.mano_joints.lookup k).getD []).length = T)
    (ht : t < min T L) (hq : q < 5) :
    ((process_data F skip L d cloud).tips_distance.getD t []).getD q 0 =
      listMin ((frameCloud F d cloud t).map fun c =>
        euclidDist (tipPoint F d q t) c) ∧
    0 ≤ ((process_data F skip L d cloud).tips_distance.getD t []).getD q 0 ∧
    (tipPoint F d q t ∈ frameCloud F d cloud t →
      ((process_data F skip L d cloud).tips_distance.getD t []).getD q 0 = 0) := by
  have htT : t < T := lt_of_lt_of_le ht (min_le_left _ _)
  have htL : t < L := lt_of_lt_of_le ht (min_le_right _ _)
  have hthumbT :
      (lookupJoints (processCore F skip d cloud).mano_joints "thumb_tip").length = T := by
    rw [processCore_mano_joints, length_lookupJoints_map]
    exact h5 "thumb_tip" (by simp [tip_list])
  have hqtip : q < tip_list.length := by
    simpa [tip_list] using hq
  have hktip : tip_list.getD q "" ∈ tip_list := by
    rw [List.getD_eq_getElem tip_list "" hqtip]
    exact List.getElem_mem hqtip
  have hlk : ∀ k, lookupJoints (processCore F skip d cloud).mano_joints k =
      (lookupJoints d.mano_joints k).map
        fun w => (rot3 F).mulVec w + trans3 F := by
    intro k
    rw [processCore_mano_joints]
    unfold lookupJoints
    rw [lookup_map_snd]
    cases d.mano_joints.lookup k <;> rfl
  have key : ((process_data F skip L d cloud).tips_distance.getD t []).getD q 0 =
      Real.sqrt (minSqDist (tipPoint F d q t) (frameCloud F d cloud t)) := by
    have hstep : (process_data F skip L d cloud).tips_distance.getD t [] =
        (processCore F skip d cloud).tips_distance.getD t [] := by
      simp only [process_data]
      split
      · show ((processCore F skip d cloud).tips_distance.take L).getD t [] = _
        exact getD_take_lt _ _ _ htL _
      · rfl
    have hlen1 : t < ((List.range
        (lookupJoints (processCore F skip d cloud).mano_joints "thumb_tip").length).map
          fun (t' : ℕ) => tip_list.map fun k =>
            (lookupJoints (processCore F skip d cloud).mano_joints k).getD t' 0).length := by
      rw [List.length_map, List.length_range, hthumbT]
      exact htT
    have hlen2 : t < ((processCore F skip d cloud).obj_trajectory.map
        fun m => cloud.map fun v => (rot3 m).mulVec v + trans3 m).length := by
      rw [List.length_map, processCore_obj_trajectory, List.length_map, h1]
      exact htT
    rw [hstep, processCore_tips_distance,
      getD_zipWith_lt _ _ _ t hlen1 hlen2 [] [] []]
    have hrowlen : t < (List.range
        (lookupJoints (processCore F skip d cloud).mano_joints "thumb_tip").length).length := by
      rw [List.length_range, hthumbT]
      exact htT
    rw [getD_map_lt _ _ _ hrowlen [] 0, getD_range_lt _ _ (by rw [hthumbT]; exact htT) 0]
    have hqrow : q < (tip_list.map fun k =>
        (lookupJoints (processCore F skip d cloud).mano_joints k).getD t 0).length := by
      rw [List.length_map]
      exact hqtip
    rw [getD_map_lt _ _ _ hqrow 0 0, getD_map_lt _ _ _ hqtip 0 ""]
    have htk : t < (lookupJoints d.mano_joints (tip_list.getD q "")).length := by
      have := h5 _ hktip
      unfold lookupJoints
      rw [this]
      exact htT
    rw [hlk, getD_map_lt _ _ _ htk 0 0]
    have hcloudRow : ((processCore F skip d cloud).obj_trajectory.map
        fun m => cloud.map fun v => (rot3 m).mulVec v + trans3 m).getD t [] =
          frameCloud F d cloud t := by
      have hoT : t < (processCore F skip d cloud).obj_trajectory.length := by
        rw [processCore_obj_trajectory, List.length_map, h1]
        exact htT
      rw [getD_map_lt _ _ _ hoT [] 1, processCore_obj_trajectory,
        getD_map_lt _ _ _ (by rw [h1]; exact htT) 1 1]
      rfl
    rw [hcloudRow]
    rfl
  refine ⟨?_, ?_, ?_⟩
  · rw [key, sqrt_minSqDist]
  · rw [key]
    exact Real.sqrt_nonneg _
  · intro hmem
    rw [key, minSqDist_eq_zero_of_mem _ _ hmem, Real.sqrt_zero]

/-- A one-frame raw Sample used to witness Claim C6's theorem. -/
def rawC6 : RawSample where
  obj_trajectory := [1]
  wrist_pos := [![0, 0, 0]]
  wrist_rot := [1]
  mano_joints :=
    [("thumb_tip", [![0, 0, 0]]),
     ("index_tip", [![0, 1, 0]]),
     ("middle_tip", [![0, 1, 1]]),
     ("ring_tip", [![1, 0, 0]]),
     ("pinky_tip", [![1, 0, 1]])]

/-- A constant 1000-point cloud used to witness Claim C6's theorem. -/
def cloudC6 : List Vec3 := List.replicate 1000 ![0, 0, 0]

/-- Witness for Claim C6's theorem at a concrete Sample, cloud, frame and
query index. -/
theorem process_data_tips_distance_correct_witness :
    ((process_data transfW 2 1 rawC6 cloudC6).tips_distance.getD 0 []).getD 0 0 =
      listMin ((frameCloud transfW rawC6 cloudC6 0).map fun c =>
        euclidDist (tipPoint transfW rawC6 0 0) c) ∧
    0 ≤ ((process_data transfW 2 1 rawC6 cloudC6).tips_distance.getD 0 []).getD 0 0 ∧
    (tipPoint transfW rawC6 0 0 ∈ frameCloud transfW rawC6 cloudC6 0 →
      ((process_data transfW 2 1 rawC6 cloudC6).tips_distance.getD 0 []).getD 0 0 = 0) :=
  process_data_tips_distance_correct transfW 2 1 rawC6 cloudC6 1 0 0
    (by simp only [cloudC6, List.length_replicate]) rfl
    (by intro k hk; fin_cases hk <;> rfl)
    (by decide) (by decide)

/-! ## Claim C3: the angular-velocity padding policy -/

/-- Evaluation of one smoothed output frame. -/
theorem gaussian_filter1d_getD (xs : List Vec3) (t : ℕ) (h : t < xs.length) :
    (gaussian_filter1d xs).getD t 0 =
      Finset.sum (Finset.range 17) fun j =>
        (gaussianWeight ((j : ℤ) - 8) / gaussianKernelSum) •
          xs.getD (clampIdx xs.length ((t : ℤ) + (j : ℤ) - 8)) 0 := by
  unfold gaussian_filter1d
  rw [getD_map_lt _ _ _ (by simpa) 0 0, getD_range_lt _ _ (by simpa) 0]

/-- The difference of the last two smoothed frames of a length-4 series
`[0, 0, w, w]` is the `σ = 2` kernel weight at offset 1 times `w`: the
"nearest" clamping loads the two boundary frames with different mixtures
of the earlier frames. -/
theorem gaussian4_tail_diff (w : Vec3) :
    (gaussian_filter1d [(0 : Vec3), 0, w, w]).getD 3 0 -
    (gaussian_filter1d [(0 : Vec3), 0, w, w]).getD 2 0 =
      (gaussianWeight (-1) / gaussianKernelSum) • w := by
  rw [gaussian_filter1d_getD _ 3 (by simp), gaussian_filter1d_getD _ 2 (by simp)]
  simp only [Finset.sum_range_succ, Finset.sum_range_zero]
  norm_num [clampIdx]
  simp

theorem gaussianKernelSum_pos : 0 < gaussianKernelSum := by
  apply Finset.sum_pos
  · intro i _
    exact Real.exp_pos _
  · exact ⟨0, Finset.mem_range.mpr (by norm_num)⟩

/-- The rotation by angle 1 about the z-axis. -/
def Rz1 : Mat3 := ![![Real.cos 1, -Real.sin 1, 0], ![Real.sin 1, Real.cos 1, 0], ![0, 0, 1]]

theorem rotmat_to_aa_one : rotmat_to_aa 1 = 0 := by
  simp only [rotmat_to_aa]
  have hskew : (![(1 : Mat3) 2 1 - (1 : Mat3) 1 2, (1 : Mat3) 0 2 - (1 : Mat3) 2 0,
      (1 : Mat3) 1 0 - (1 : Mat3) 0 1] : Vec3) = 0 := by
    funext i
    fin_cases i <;> simp [Matrix.one_apply]
  rw [hskew]
  simp

theorem pairAngularVelocity_id (td : ℝ) : pairAngularVelocity td 1 1 = 0 := by
  simp only [pairAngularVelocity]
  rw [Matrix.transpose_one, mul_one, rotmat_to_aa_one]
  simp

theorem sin_one_pos : (0 : ℝ) < Real.sin 1 :=
  Real.sin_pos_of_pos_of_lt_pi one_pos (by linarith [Real.pi_gt_three])

theorem rotmat_to_aa_Rz1 : rotmat_to_aa Rz1 = ![0, 0, 1] := by
  simp only [rotmat_to_aa]
  have hskew : (![Rz1 2 1 - Rz1 1 2, Rz1 0 2 - Rz1 2 0, Rz1 1 0 - Rz1 0 1] : Vec3)
      = ![0, 0, 2 * Real.sin 1] := by
    funext i
    fin_cases i <;> (simp [Rz1]; try ring)
  rw [hskew]
  have htr : Matrix.trace Rz1 = 2 * Real.cos 1 + 1 := by
    simp [Matrix.trace, Fin.sum_univ_three, Rz1]
    ring
  rw [htr]
  have hangle : Real.arccos ((2 * Real.cos 1 + 1 - 1) / 2) = 1 := by
    have harg : (2 * Real.cos 1 + 1 - 1) / 2 = Real.cos 1 := by ring
    rw [harg]
    exact Real.arccos_cos (by norm_num) (by linarith [Real.pi_gt_three])
  rw [hangle]
  have hnorm : norm3 ![0, 0, 2 * Real.sin 1] = 2 * Real.sin 1 := by
    unfold norm3 sqNorm3
    have hsq : (![0, 0, 2 * Real.sin 1] : Vec3) 0 ^ 2
        + (![0, 0, 2 * Real.sin 1] : Vec3) 1 ^ 2
        + (![0, 0, 2 * Real.sin 1] : Vec3) 2 ^ 2 = (2 * Real.sin 1) ^ 2 := by
      simp
    rw [hsq]
    exact Real.sqrt_sq (by linarith [sin_one_pos])
  rw [hnorm]
  have hs := sin_one_pos
  funext i
  fin_cases i <;> simp
  field_simp
  ring

theorem norm3_e3 : norm3 ![0, 0, 1] = 1 := by
  unfold norm3 sqNorm3
  norm_num

theorem pairAngularVelocity_Rz1 (td : ℝ) :
    pairAngularVelocity td 1 Rz1 = ((1 / td) * (1 + 1e-8)⁻¹) • ![0, 0, 1] := by
  simp only [pairAngularVelocity]
  rw [Matrix.transpose_one, mul_one, rotmat_to_aa_Rz1, norm3_e3]
  rw [smul_smul]

/-- Counterexample to Claim C3 as stated: on the explicit four-frame
rotation series `[I, I, I, Rz(1)]` (identity for three frames, then a unit
z-rotation) with `Δt = 1/60`, `compute_angular_velocity` — whose Gaussian
smoothing flag defaults to `True` and is `True` at every call site — does
return `T = 4` frames, but the last frame of the returned series differs
from the second-to-last: the smoothing that follows the duplication mixes
the two boundary frames with different weights. -/
theorem compute_angular_velocity_smoothed_last_frame_ne :
    (compute_angular_velocity [1, 1, 1, Rz1] (1 / 60) true).length = 4 ∧
    (compute_angular_velocity [1, 1, 1, Rz1] (1 / 60) true).getD 3 0 ≠
      (compute_angular_velocity [1, 1, 1, Rz1] (1 / 60) true).getD 2 0 := by
  have hx : compute_angular_velocity [1, 1, 1, Rz1] (1 / 60) true =
      gaussian_filter1d [pairAngularVelocity (1 / 60) 1 1,
        pairAngularVelocity (1 / 60) 1 1, pairAngularVelocity (1 / 60) 1 Rz1,
        pairAngularVelocity (1 / 60) 1 Rz1] := rfl
  have hw : compute_angular_velocity [1, 1, 1, Rz1] (1 / 60) true =
      gaussian_filter1d [(0 : Vec3), 0,
        ((1 / (1 / 60 : ℝ)) * (1 + 1e-8)⁻¹) • ![0, 0, 1],
        ((1 / (1 / 60 : ℝ)) * (1 + 1e-8)⁻¹) • ![0, 0, 1]] := by
    rw [hx, pairAngularVelocity_id, pairAngularVelocity_Rz1]
  refine ⟨by rw [hw]; rfl, ?_⟩
  rw [hw]
  intro h
  have hdiff := gaussian4_tail_diff (((1 / (1 / 60 : ℝ)) * (1 + 1e-8)⁻¹) • ![0, 0, 1])
  rw [h, sub_self] at hdiff
  have h2 := congrFun hdiff.symm 2
  have heps : (0 : ℝ) < 1 + 1e-8 := by norm_num
  simp [Pi.smul_apply] at h2
  rcases h2 with (hg | hk) | he
  · exact absurd hg (ne_of_gt (Real.exp_pos _))
  · exact absurd hk (ne_of_gt gaussianKernelSum_pos)
  · linarith

/-- Claim C3 as amended: for every rotation series with `T ≥ 2` frames,
`compute_angular_velocity` computes `T - 1` per-pair angular-velocity
vectors and duplicates the last computed value, so its output has length
`T` with either smoothing flag; the last frame of the returned series
equals the second-to-last frame for the *unsmoothed* output
(`guassian_filter = False`) — with smoothing enabled (the repository's
call mode) the two boundary frames may differ. -/
theorem compute_angular_velocity_pad_last_frame (r : List Mat3) (td : ℝ)
    (h : 2 ≤ r.length) :
    (List.zipWith (fun rNext rPrev => pairAngularVelocity td rPrev rNext)
      (r.drop 1) r).length = r.length - 1 ∧
    (compute_angular_velocity r td true).length = r.length ∧
    (compute_angular_velocity r td false).length = r.length ∧
    (compute_angular_velocity r td false).getD (r.length - 1) 0 =
      (compute_angular_velocity r td false).getD (r.length - 2) 0 := by
  have hlen : (List.zipWith (fun rNext rPrev => pairAngularVelocity td rPrev rNext)
      (r.drop 1) r).length = r.length - 1 := by
    simp [List.length_zipWith]
    try omega
  refine ⟨hlen, length_compute_angular_velocity r td true h,
    length_compute_angular_velocity r td false h, ?_⟩
  have hfalse : compute_angular_velocity r td false =
      (List.zipWith (fun rNext rPrev => pairAngularVelocity td rPrev rNext)
        (r.drop 1) r) ++
      (List.zipWith (fun rNext rPrev => pairAngularVelocity td rPrev rNext)
        (r.drop 1) r).drop
        ((List.zipWith (fun rNext rPrev => pairAngularVelocity td rPrev rNext)
          (r.drop 1) r).length - 1) := rfl
  rw [hfalse]
  set av := List.zipWith (fun rNext rPrev => pairAngularVelocity td rPrev rNext)
    (r.drop 1) r with hav
  have hi1 : r.length - 1 = av.length := by omega
  have hi2 : r.length - 2 = av.length - 1 := by omega
  rw [hi1, hi2]
  have hright : (av ++ av.drop (av.length - 1)).getD av.length 0 =
      av.getD (av.length - 1) 0 := by
    rw [List.getD_eq_getElem?_getD, List.getElem?_append_right (le_refl _),
      Nat.sub_self, List.getElem?_drop, Nat.add_zero, ← List.getD_eq_getElem?_getD]
  have hleft : (av ++ av.drop (av.length - 1)).getD (av.length - 1) 0 =
      av.getD (av.length - 1) 0 := by
    rw [List.getD_eq_getElem?_getD, List.getElem?_append_left (by omega),
      ← List.getD_eq_getElem?_getD]
  rw [hright, hleft]

/-- Witness for the amended Claim C3 theorem on a concrete two-frame
series. -/
theorem compute_angular_velocity_pad_last_frame_witness :
    (List.zipWith (fun rNext rPrev => pairAngularVelocity 1 rPrev rNext)
      (([(1 : Mat3), 1] : List Mat3).drop 1) [(1 : Mat3), 1]).length = 1 ∧
    (compute_angular_velocity [(1 : Mat3), 1] 1 true).length = 2 ∧
    (compute_angular_velocity [(1 : Mat3), 1] 1 false).length = 2 ∧
    (compute_angular_velocity [(1 : Mat3), 1] 1 false).getD 1 0 =
      (compute_angular_velocity [(1 : Mat3), 1] 1 false).getD 0 0 :=
  compute_angular_velocity_pad_last_frame [(1 : Mat3), 1] 1 (by decide)
